import Mathlib

/-!
Verification of the MQTT-over-WebSocket core of `aiohttp-pydantic`
(`aiohttp_pydantic/ws_subprotocol/mqtt.py`, `aiohttp_pydantic/wsapp.py`,
`aiohttp_pydantic/mq_backend/memory.py`).

Byte strings are modelled as `List Nat` (each element one byte of the wire),
Python `bytes` slicing as clamped drop/take, and Python exceptions as the
`MQTTErr` error type of an `Except` result.  The stateful pieces
(`MQTTPacketAssembler`, the per-connection handler loop, `MemoryMQBackend`)
are modelled by explicit state passing.
-/

/-- `data[a:b]` on Python bytes: clamped slice, never raises. -/
def pySlice (l : List Nat) (a b : Nat) : List Nat :=
  (l.drop a).take (b - a)

/-- `data[i]` on Python bytes: raises `IndexError` when out of range. -/
def pyGet (l : List Nat) (i : Nat) : Option Nat :=
  l.get? i

/-- `int.from_bytes(data, byteorder="big")`. -/
def int_from_bytes_be (l : List Nat) : Nat :=
  l.foldl (fun acc b => acc * 256 + b) 0

/-- `n.to_bytes(2, byteorder="big")`; matches Python exactly for `n < 2^16`
(Python raises `OverflowError` above that, which callers exclude). -/
def to_bytes_2_be (n : Nat) : List Nat :=
  [n / 256 % 256, n % 256]

/-! ### Remaining-length varint codec (`encode_remaining_length`,
`decode_remaining_length`, mqtt.py lines 10-44) -/

/-- `encode_remaining_length`: 7-bit groups, little-endian group order,
continuation bit `0x80` on every byte but the last (the source's do-while
loop `byte = length % 128; length //= 128; ...`). -/
def encode_remaining_length (length : Nat) : List Nat :=
  let byte := length % 128
  let length' := length / 128
  if h : 0 < length' then
    (byte ||| 0x80) :: encode_remaining_length length'
  else
    [byte]
termination_by length
decreasing_by
  exact Nat.div_lt_self (Nat.pos_of_ne_zero (by rintro rfl; simp at h)) (by norm_num)

/-- The `for bytes_used, byte in enumerate(data, 1)` loop body of
`decode_remaining_length`, carrying `multiplier`, `value` and the
enumeration counter.  When the data runs out without a terminating byte the
source falls off the loop and returns the partial `(value, bytes_used)`. -/
def decodeRLAux : List Nat → Nat → Nat → Nat → Except String (Nat × Nat)
  | [], _, value, bytes_used => .ok (value, bytes_used)
  | b :: rest, multiplier, value, bytes_used =>
    let bytes_used' := bytes_used + 1
    let value' := value + (b &&& 127) * multiplier
    if (b &&& 128) = 0 then
      .ok (value', bytes_used')
    else if bytes_used' > 3 then
      .error "Malformed Remaining Length"
    else
      decodeRLAux rest (multiplier * 128) value' bytes_used'

/-- `decode_remaining_length(data)` (mqtt.py lines 32-44). -/
def decode_remaining_length (data : List Nat) : Except String (Nat × Nat) :=
  decodeRLAux data 1 0 0

/-! ### Bitwise helper lemmas -/

theorem land127_eq_mod (b : Nat) : b &&& 127 = b % 128 := by
  simpa using Nat.and_pow_two_sub_one_eq_mod b 7

theorem land128_eq_zero_of_lt {b : Nat} (h : b < 128) : b &&& 128 = 0 := by
  have h2 : b &&& 2 ^ 7 = (b.testBit 7).toNat * 2 ^ 7 := Nat.and_two_pow b 7
  rw [Nat.testBit_eq_false_of_lt (by simpa using h)] at h2
  simpa using h2

theorem or128_land127 (a : Nat) : (a ||| 128) &&& 127 = a &&& 127 := by
  apply Nat.eq_of_testBit_eq
  intro i
  simp only [Nat.testBit_and, Nat.testBit_or]
  rcases Nat.lt_or_ge i 7 with h | h
  · have h128 : (128 : Nat).testBit i = false := by
      interval_cases i <;> decide
    simp [h128]
  · have h127 : (127 : Nat).testBit i = false := by
      apply Nat.testBit_eq_false_of_lt
      calc (127 : Nat) < 2 ^ 7 := by norm_num
        _ ≤ 2 ^ i := Nat.pow_le_pow_right (by norm_num) h
    simp [h127]

theorem or128_land128_ne_zero (a : Nat) : (a ||| 128) &&& 128 ≠ 0 := by
  intro hzero
  have htb : (a ||| 128).testBit 7 = true := by
    simp only [Nat.testBit_or]
    have : (128 : Nat).testBit 7 = true := by decide
    simp [this]
  have h2 : (a ||| 128) &&& 2 ^ 7 = ((a ||| 128).testBit 7).toNat * 2 ^ 7 :=
    Nat.and_two_pow (a ||| 128) 7
  rw [htb] at h2
  simp only [Bool.toNat_true, one_mul] at h2
  rw [show (2 : Nat) ^ 7 = 128 by norm_num] at h2
  omega

/-! ### Varint round trip (claim C6) -/

theorem encode_remaining_length_small {n : Nat} (h : n < 128) :
    encode_remaining_length n = [n % 128] := by
  rw [encode_remaining_length]
  simp [Nat.div_eq_of_lt h]

theorem encode_remaining_length_big {n : Nat} (h : 128 ≤ n) :
    encode_remaining_length n = ((n % 128) ||| 0x80) :: encode_remaining_length (n / 128) := by
  rw [encode_remaining_length]
  have : 0 < n / 128 := Nat.div_pos h (by norm_num)
  simp [this]

theorem encode_remaining_length_length_le :
    ∀ k n : Nat, 0 < k → n < 128 ^ k → (encode_remaining_length n).length ≤ k := by
  intro k
  induction k with
  | zero => omega
  | succ k ih =>
    intro n _ hn
    by_cases h : n < 128
    · rw [encode_remaining_length_small h]
      simp
    · rw [encode_remaining_length_big (Nat.le_of_not_lt h)]
      have hk : 0 < k := by
        by_contra hk0
        have : k = 0 := by omega
        subst this
        simp at hn
        omega
      have hdiv : n / 128 < 128 ^ k := by
        rw [Nat.div_lt_iff_lt_mul (by norm_num : (0:Nat) < 128)]
        calc n < 128 ^ (k + 1) := hn
          _ = 128 ^ k * 128 := by ring
      simpa using Nat.succ_le_succ (ih (n / 128) hk hdiv)

theorem encode_remaining_length_length_pos (n : Nat) :
    0 < (encode_remaining_length n).length := by
  by_cases h : n < 128
  · rw [encode_remaining_length_small h]; simp
  · rw [encode_remaining_length_big (Nat.le_of_not_lt h)]; simp

/-- Decoding runs exactly over the encoded varint (any trailing bytes are
left untouched) and recovers the value, provided the encoding fits in the
4-byte budget counted from enumeration position `bu`. -/
theorem decodeRLAux_encode_append :
    ∀ n rest m v bu, bu + (encode_remaining_length n).length ≤ 4 →
      decodeRLAux (encode_remaining_length n ++ rest) m v bu =
        .ok (v + n * m, bu + (encode_remaining_length n).length) := by
  intro n
  induction n using Nat.strong_induction_on with
  | _ n ih =>
    intro rest m v bu hbu
    by_cases h : n < 128
    · rw [encode_remaining_length_small h] at hbu ⊢
      have hmod : n % 128 = n := Nat.mod_eq_of_lt h
      simp only [hmod, List.cons_append, List.nil_append, decodeRLAux]
      rw [if_pos (land128_eq_zero_of_lt h), land127_eq_mod, hmod]
      simp
    · have h' : 128 ≤ n := Nat.le_of_not_lt h
      rw [encode_remaining_length_big h'] at hbu ⊢
      simp only [List.length_cons] at hbu
      have hlenpos := encode_remaining_length_length_pos (n / 128)
      have hbu2 : bu ≤ 2 := by omega
      simp only [List.cons_append, decodeRLAux]
      rw [if_neg (or128_land128_ne_zero (n % 128))]
      rw [if_neg (by omega : ¬ bu + 1 > 3)]
      rw [or128_land127, land127_eq_mod,
        Nat.mod_eq_of_lt (Nat.mod_lt n (by norm_num))]
      have hdivlt : n / 128 < n := Nat.div_lt_self (by omega) (by norm_num)
      rw [List.append_eq]
      rw [ih (n / 128) hdivlt rest (m * 128) (v + n % 128 * m) (bu + 1) (by omega)]
      have harith : v + n % 128 * m + n / 128 * (m * 128) = v + n * m := by
        conv_rhs => rw [← Nat.mod_add_div n 128]
        ring
      rw [harith]
      have hcount : bu + 1 + (encode_remaining_length (n / 128)).length =
          bu + (1 + (encode_remaining_length (n / 128)).length) := by omega
      rw [hcount]
      simp only [List.length_cons]
      congr 2
      omega

/-- When the value needs more than the remaining byte budget, the decoder
hits its 4-continuation-byte limit and reports a malformed remaining
length. -/
theorem decodeRLAux_encode_error :
    ∀ n rest m v bu, bu ≤ 3 → 128 ^ (4 - bu) ≤ n →
      decodeRLAux (encode_remaining_length n ++ rest) m v bu =
        .error "Malformed Remaining Length" := by
  intro n
  induction n using Nat.strong_induction_on with
  | _ n ih =>
    intro rest m v bu hbu hn
    have hpow : (128 : Nat) ≤ 128 ^ (4 - bu) := by
      calc (128 : Nat) = 128 ^ 1 := by norm_num
        _ ≤ 128 ^ (4 - bu) := Nat.pow_le_pow_right (by norm_num) (by omega)
    have h' : 128 ≤ n := le_trans hpow hn
    rw [encode_remaining_length_big h']
    simp only [List.cons_append, decodeRLAux]
    rw [if_neg (or128_land128_ne_zero (n % 128))]
    by_cases hlast : bu + 1 > 3
    · rw [if_pos hlast]
    · rw [if_neg hlast]
      have hbu2 : bu ≤ 2 := by omega
      have hdivlt : n / 128 < n := Nat.div_lt_self (by omega) (by norm_num)
      have hdiv : 128 ^ (4 - (bu + 1)) ≤ n / 128 := by
        rw [Nat.le_div_iff_mul_le (by norm_num : (0:Nat) < 128)]
        calc 128 ^ (4 - (bu + 1)) * 128 = 128 ^ (4 - bu) := by
              rw [← pow_succ]
              congr 1
              omega
          _ ≤ n := hn
      rw [List.append_eq]
      exact ih (n / 128) hdivlt rest (m * 128) _ (bu + 1) (by omega) hdiv

/-- C6.  For every `n` in `[0, 2^28-1]` the decoder inverts the encoder,
returning `n` together with the exact byte length of the encoding (at most
4 bytes); for every larger value, decoding the encoding is a
"Malformed Remaining Length" error. -/
theorem varint_round_trip_and_overflow (n : Nat) :
    (n ≤ 2 ^ 28 - 1 →
      decode_remaining_length (encode_remaining_length n) =
        .ok (n, (encode_remaining_length n).length) ∧
      (encode_remaining_length n).length ≤ 4) ∧
    (2 ^ 28 - 1 < n →
      decode_remaining_length (encode_remaining_length n) =
        .error "Malformed Remaining Length") := by
  constructor
  · intro hn
    have hlen : (encode_remaining_length n).length ≤ 4 := by
      apply encode_remaining_length_length_le 4 n (by norm_num)
      have : (128 : Nat) ^ 4 = 2 ^ 28 := by norm_num
      omega
    refine ⟨?_, hlen⟩
    have h := decodeRLAux_encode_append n [] 1 0 0 (by omega)
    rw [List.append_nil] at h
    unfold decode_remaining_length
    rw [h]
    simp
  · intro hn
    have h := decodeRLAux_encode_error n [] 1 0 0 (by omega)
      (by
        have : (128 : Nat) ^ 4 = 2 ^ 28 := by norm_num
        simp only [Nat.sub_zero]
        omega)
    rw [List.append_nil] at h
    unfold decode_remaining_length
    rw [h]

/-- Witness for C6: concrete instances of both halves
(`300` encodes on 2 bytes and round-trips; `2^28` overflows). -/
theorem varint_round_trip_and_overflow_witness :
    decode_remaining_length (encode_remaining_length 300) =
      .ok (300, (encode_remaining_length 300).length) ∧
    decode_remaining_length (encode_remaining_length (2 ^ 28)) =
      .error "Malformed Remaining Length" :=
  ⟨((varint_round_trip_and_overflow 300).1 (by norm_num)).1,
   (varint_round_trip_and_overflow (2 ^ 28)).2 (by norm_num)⟩

/-! ### Error type for the Python exceptions of the MQTT module -/

/-- The exceptions that can escape the MQTT packet-handling code:
`ValueError` (malformed varint), `ProtocolViolation`,
`UnacceptableProtocolVersion`, `CloseWSConnection` (DISCONNECT),
`IndexError` (out-of-range byte access) and the generic `Exception` raised
by `MQTT.read_ws_packet` on a non-binary WebSocket message. -/
inductive MQTTErr where
  | valueError (msg : String)
  | protocolViolation (msg : String)
  | unacceptableProtocolVersion (msg : String)
  | closeWSConnection
  | indexError
  | unsupportedWSMessage
deriving DecidableEq, Repr

/-! ### `MQTTPacket` and `MQTTPacketAssembler` (mqtt.py lines 582-637) -/

/-- `MQTTPacket(packet, payload_start)`: the raw packet bytes and the offset
where the variable header begins. -/
structure MQTTPacket where
  packet : List Nat
  payload_start : Nat
deriving DecidableEq, Repr

/-- `packet[0]` (the assembler only builds packets of length ≥ 2). -/
def MQTTPacket.packet_type_and_flags (p : MQTTPacket) : Nat :=
  p.packet.headD 0

/-- `packet[payload_start:]`. -/
def MQTTPacket.variable_header_and_payload (p : MQTTPacket) : List Nat :=
  p.packet.drop p.payload_start

/-- `(packet[0] >> 4) & 0x0F`. -/
def MQTTPacket.packet_type (p : MQTTPacket) : Nat :=
  (p.packet.headD 0 >>> 4) &&& 0x0F

/-- The mutable fields of `MQTTPacketAssembler`. -/
structure AssemblerState where
  _buffer : List Nat
  _total_length : Nat
  _start_payload : Nat
deriving DecidableEq, Repr

/-- `MQTTPacketAssembler.__init__`. -/
def AssemblerState.init : AssemblerState := ⟨[], 0, 0⟩

/-- `MQTTPacketAssembler.append_fragment` (mqtt.py lines 608-637). -/
def append_fragment (s : AssemblerState) (fragment : List Nat) :
    Except MQTTErr (Option MQTTPacket × AssemblerState) :=
  let buffer := s._buffer ++ fragment
  if buffer.length < 2 then
    .ok (none, { s with _buffer := buffer })
  else
    let computed : Except MQTTErr (Nat × Nat) :=
      if s._total_length = 0 then
        match decode_remaining_length (buffer.drop 1) with
        | .ok (remaining_length, num_bytes) =>
          .ok (1 + num_bytes + remaining_length, 1 + num_bytes)
        | .error msg => .error (.valueError msg)
      else
        .ok (s._total_length, s._start_payload)
    match computed with
    | .error e => .error e
    | .ok (total_length, start_payload) =>
      if buffer.length < total_length then
        .ok (none, ⟨buffer, total_length, start_payload⟩)
      else
        .ok (some ⟨buffer.take total_length, start_payload⟩,
          ⟨buffer.drop total_length, 0, 0⟩)

/-- Feed a list of fragments in order, collecting each call's result. -/
def run_fragments : AssemblerState → List (List Nat) →
    Except MQTTErr (List (Option MQTTPacket) × AssemblerState)
  | s, [] => .ok ([], s)
  | s, f :: fs =>
    match append_fragment s f with
    | .error e => .error e
    | .ok (out, s') =>
      match run_fragments s' fs with
      | .error e => .error e
      | .ok (outs, s'') => .ok (out :: outs, s'')

/-- The bytes a call to `append_fragment` hands to the caller. -/
def packetBytes : Option MQTTPacket → List Nat
  | none => []
  | some p => p.packet

/-- One-step evaluation equation for `encode_remaining_length`, usable by
`simp` on concrete inputs (the well-founded definition does not reduce
definitionally). -/
theorem encode_remaining_length_eval (n : Nat) :
    encode_remaining_length n =
      if 0 < n / 128 then ((n % 128) ||| 0x80) :: encode_remaining_length (n / 128)
      else [n % 128] := by
  rw [encode_remaining_length]
  simp only [dite_eq_ite]

/-- C10.  (1) Every `append_fragment` call conserves bytes: the returned
packet's bytes (empty when no packet is returned) followed by the retained
buffer equal the previous buffer followed by the input fragment — so a call
returns at most the leading packet and keeps every surplus byte buffered.
(2) From a fresh assembler, a single fragment holding one complete
well-formed packet plus surplus bytes yields exactly that first packet and
retains exactly the surplus (so a second concatenated packet is only
produced by a later call). -/
theorem append_fragment_conserves_bytes :
    (∀ s fragment out s',
        append_fragment s fragment = .ok (out, s') →
        packetBytes out ++ s'._buffer = s._buffer ++ fragment) ∧
    (∀ h0 rl body surplus, rl < 2 ^ 28 → body.length = rl →
        append_fragment AssemblerState.init
            (h0 :: (encode_remaining_length rl ++ (body ++ surplus))) =
          .ok (some ⟨h0 :: (encode_remaining_length rl ++ body),
                     1 + (encode_remaining_length rl).length⟩,
               ⟨surplus, 0, 0⟩)) := by
  constructor
  · intro s fragment out s' h
    simp only [append_fragment] at h
    split at h
    · cases h
      simp [packetBytes]
    · split at h
      · exact absurd h (by simp)
      · split at h
        · cases h
          simp [packetBytes]
        · cases h
          simp [packetBytes, List.take_append_drop]
  · intro h0 rl body surplus hrl hlen
    have hlen4 : (encode_remaining_length rl).length ≤ 4 := by
      apply encode_remaining_length_length_le 4 rl (by norm_num)
      have : (128 : Nat) ^ 4 = 2 ^ 28 := by norm_num
      omega
    have henc := encode_remaining_length_length_pos rl
    have hdec : decode_remaining_length
        (encode_remaining_length rl ++ (body ++ surplus)) =
        .ok (rl, (encode_remaining_length rl).length) := by
      unfold decode_remaining_length
      have := decodeRLAux_encode_append rl (body ++ surplus) 1 0 0 (by omega)
      simpa using this
    simp only [append_fragment, AssemblerState.init, List.nil_append]
    rw [if_neg (show ¬ (h0 :: (encode_remaining_length rl ++ (body ++ surplus))).length < 2 by
      simp only [List.length_cons, List.length_append]
      omega)]
    have hdrop1 : List.drop 1 (h0 :: (encode_remaining_length rl ++ (body ++ surplus))) =
        encode_remaining_length rl ++ (body ++ surplus) := rfl
    simp only [hdrop1, hdec, if_true]
    rw [if_neg (show ¬ (h0 :: (encode_remaining_length rl ++ (body ++ surplus))).length <
        1 + (encode_remaining_length rl).length + rl by
      simp only [List.length_cons, List.length_append]
      omega)]
    have htake : (h0 :: (encode_remaining_length rl ++ (body ++ surplus))).take
        (1 + (encode_remaining_length rl).length + rl) =
        h0 :: (encode_remaining_length rl ++ body) := by
      have h1 : 1 + (encode_remaining_length rl).length + rl =
          ((encode_remaining_length rl).length + rl) + 1 := by omega
      rw [h1, List.take_succ_cons]
      rw [show encode_remaining_length rl ++ (body ++ surplus) =
          (encode_remaining_length rl ++ body) ++ surplus by simp]
      rw [List.take_left' (by simp [hlen])]
    have hdrop : (h0 :: (encode_remaining_length rl ++ (body ++ surplus))).drop
        (1 + (encode_remaining_length rl).length + rl) = surplus := by
      have h1 : 1 + (encode_remaining_length rl).length + rl =
          ((encode_remaining_length rl).length + rl) + 1 := by omega
      rw [h1, List.drop_succ_cons]
      rw [show encode_remaining_length rl ++ (body ++ surplus) =
          (encode_remaining_length rl ++ body) ++ surplus by simp]
      rw [List.drop_left' (by simp [hlen])]
    rw [htake, hdrop]

/-- Witness for C10: a concrete conserving call (fresh assembler, the
2-byte fragment `[0x30, 0x01]` of an incomplete PUBLISH is fully retained)
and a concrete concatenation (the complete packet `[0x30, 0x01, 0x07]`
followed by the surplus byte `0xC0` yields the packet and keeps `0xC0`). -/
theorem append_fragment_conserves_bytes_witness :
    append_fragment AssemblerState.init [0x30, 0x01] =
      .ok (none, ⟨[0x30, 0x01], 3, 2⟩) ∧
    packetBytes none ++ [0x30, 0x01] = ([] : List Nat) ++ [0x30, 0x01] ∧
    append_fragment AssemblerState.init [0x30, 0x01, 0x07, 0xC0] =
      .ok (some ⟨[0x30, 0x01, 0x07], 2⟩, ⟨[0xC0], 0, 0⟩) := by
  refine ⟨rfl, ?_, ?_⟩
  · exact append_fragment_conserves_bytes.1 AssemblerState.init [0x30, 0x01]
      none ⟨[0x30, 0x01], 3, 2⟩ rfl
  · have he : encode_remaining_length 1 = [1] := by
      simp [encode_remaining_length_eval]
    have h := append_fragment_conserves_bytes.2 0x30 1 [0x07] [0xC0]
      (by norm_num) rfl
    rw [he] at h
    simpa using h

/-- C1 (code bug).  The 131-byte well-formed packet
`0x30 :: encode_remaining_length 128 ++ (128 zero bytes)` is split into
1-byte fragments (the split the claim quantifies over).  Already the second
call — far before the last fragment — returns a bogus 2-byte "packet"
`[0x30, 0x80]`: `decode_remaining_length` silently decodes the truncated
varint `[0x80]` as (value 0, 1 byte consumed) instead of reporting that the
terminating byte has not arrived, so the assembler does not keep waiting. -/
theorem assembler_mid_varint_truncation_bug :
    encode_remaining_length 128 = [0x80, 0x01] ∧
    (0x30 :: (encode_remaining_length 128 ++ List.replicate 128 0)).length = 131 ∧
    run_fragments AssemblerState.init [[0x30], [0x80]] =
      .ok ([none, some ⟨[0x30, 0x80], 2⟩], AssemblerState.init) := by
  refine ⟨?_, ?_, rfl⟩
  · simp [encode_remaining_length_eval]
  · simp [encode_remaining_length_eval]

/-! ### Packet analyzers and encoders (mqtt.py lines 47-503)

Topics, client ids, usernames and payloads are kept as raw byte lists;
Python's `.decode("utf-8")` on topic names is modelled as the identity on
the bytes (no claim under scrutiny depends on the decoded text). -/

/-- `data[i]` with Python's `IndexError`. -/
def pyGetE (l : List Nat) (i : Nat) : Except MQTTErr Nat :=
  match l.get? i with
  | some b => .ok b
  | none => .error .indexError

/-- `MQTTConnAckReturnCode` member values. -/
def CONNECTION_ACCEPTED : Nat := 0x00
def UNACCEPTABLE_PROTOCOL_VERSION : Nat := 0x01
def NOT_AUTHORIZED : Nat := 0x05

/-- `MQTTQoSLevel` (mqtt.py lines 56-60). -/
inductive MQTTQoSLevel where
  | AT_MOST_ONCE
  | AT_LEAST_ONCE
  | EXACTLY_ONCE
  | FAILURE
deriving DecidableEq, Repr

/-- The integer value of an `MQTTQoSLevel` member. -/
def MQTTQoSLevel.toNat : MQTTQoSLevel → Nat
  | .AT_MOST_ONCE => 0
  | .AT_LEAST_ONCE => 1
  | .EXACTLY_ONCE => 2
  | .FAILURE => 128

/-- The dict returned by `analyze_mqtt_connect_packet`. -/
structure ConnectParams where
  clean_session : Bool
  will_qos : Nat
  will_retain : Bool
  keep_alive : Nat
  client_id : List Nat
  will_topic : Option (List Nat) := none
  will_message : Option (List Nat) := none
  username : Option (List Nat) := none
  password : Option (List Nat) := none
deriving DecidableEq, Repr

/-- `analyze_mqtt_connect_packet(message)` (mqtt.py lines 77-157). -/
def analyze_mqtt_connect_packet (message : List Nat) :
    Except MQTTErr ConnectParams := do
  -- Protocol Name: message[2:6] != b"MQTT"
  if pySlice message 2 6 ≠ [0x4D, 0x51, 0x54, 0x54] then
    throw (.unacceptableProtocolVersion "Wrong protocol name must be MQTT")
  -- Protocol Version: message[6] != 4
  let b6 ← pyGetE message 6
  if b6 ≠ 4 then
    throw (.unacceptableProtocolVersion "Wrong protocol version, must be 3.1.1")
  -- Connect Flags: message[7]
  let b7 ← pyGetE message 7
  let clean_session := b7 &&& 0x02 != 0
  let will_flag := b7 &&& 0x04 != 0
  let will_qos := if will_flag then (b7 &&& 0x18) >>> 3 else 0
  let will_retain := if will_flag then b7 &&& 0x20 != 0 else false
  let password_flag := b7 &&& 64 != 0
  let username_flag := b7 &&& 128 != 0
  let keep_alive := int_from_bytes_be (pySlice message 8 10)
  -- Payload: Client Identifier, Will Topic, Will Message, User Name, Password
  let offset := 10
  let length := int_from_bytes_be (pySlice message offset (offset + 2))
  let offset := offset + 2
  let client_id := pySlice message offset (offset + length)
  let offset := offset + length
  let (will_topic, will_message, offset) ←
    if will_flag then do
      let length := int_from_bytes_be (pySlice message offset (offset + 2))
      let offset := offset + 2
      let wt := pySlice message offset (offset + length)
      let offset := offset + length
      let length := int_from_bytes_be (pySlice message offset (offset + 2))
      let offset := offset + 2
      let wm := pySlice message offset (offset + length)
      let offset := offset + length
      pure (some wt, some wm, offset)
    else
      pure ((none : Option (List Nat)), (none : Option (List Nat)), offset)
  let (username, offset) ←
    if username_flag then do
      let length := int_from_bytes_be (pySlice message offset (offset + 2))
      let offset := offset + 2
      let u := pySlice message offset (offset + length)
      pure (some u, offset + length)
    else
      pure ((none : Option (List Nat)), offset)
  let (password, _offset) ←
    if password_flag then do
      let length := int_from_bytes_be (pySlice message offset (offset + 2))
      let offset := offset + 2
      let p := pySlice message offset (offset + length)
      pure (some p, offset + length)
    else
      pure ((none : Option (List Nat)), offset)
  return { clean_session, will_qos, will_retain, keep_alive, client_id,
           will_topic, will_message, username, password }

/-- One topic/QoS pair read by the SUBSCRIBE payload loop. -/
structure SubscriptionItem where
  topic : List Nat
  qos : Nat
deriving DecidableEq, Repr

/-- The `while offset < len(...)` loop of `analyze_mqtt_subscribe_packet`
(mqtt.py lines 280-292); `variable_header_and_payload[offset]` raises
`IndexError` on truncated input, as in Python. -/
def subscribeLoop (vhp : List Nat) (offset : Nat) (acc : List SubscriptionItem) :
    Except MQTTErr (List SubscriptionItem) :=
  if h : offset < vhp.length then
    let topic_length := int_from_bytes_be (pySlice vhp offset (offset + 2))
    let topic := pySlice vhp (offset + 2) (offset + 2 + topic_length)
    match vhp.get? (offset + 2 + topic_length) with
    | none => .error .indexError
    | some qos =>
      subscribeLoop vhp (offset + 2 + topic_length + 1) (acc ++ [⟨topic, qos⟩])
  else
    .ok acc
termination_by vhp.length - offset
decreasing_by omega

/-- `analyze_mqtt_subscribe_packet` (mqtt.py lines 263-298): packet id then
topic/QoS pairs; an empty pair list is a protocol violation. -/
def analyze_mqtt_subscribe_packet (vhp : List Nat) :
    Except MQTTErr (Nat × List SubscriptionItem) := do
  let message_id := int_from_bytes_be (pySlice vhp 0 2)
  let subs ← subscribeLoop vhp 2 []
  if subs = [] then
    throw (.protocolViolation "A SUBSCRIBE packet with no payload is a protocol violation")
  return (message_id, subs)

/-- The dict returned by `analyze_mqtt_publish_packet`. -/
structure PublishData where
  topic_name : List Nat
  qos : Nat
  retain : Bool
  dup : Bool
  payload : List Nat
  packet_id : Option Nat
deriving DecidableEq, Repr

/-- `analyze_mqtt_publish_packet(packet_type_and_flags, vhp)`
(mqtt.py lines 301-347). -/
def analyze_mqtt_publish_packet (packet_type_and_flags : Nat) (vhp : List Nat) :
    PublishData :=
  let qos := (packet_type_and_flags &&& 0b00000110) >>> 1
  let retain := packet_type_and_flags &&& 0b00000001 != 0
  let dup := packet_type_and_flags &&& 0b00001000 != 0
  let topic_length := int_from_bytes_be (pySlice vhp 0 2)
  let topic_name := pySlice vhp 2 (2 + topic_length)
  let offset := 2 + topic_length
  let (packet_id, offset) :=
    if qos > 0 then
      (some (int_from_bytes_be (pySlice vhp offset (offset + 2))), offset + 2)
    else
      (none, offset)
  let payload := vhp.drop offset
  { topic_name, qos, retain, dup, payload, packet_id }

/-- The `while` loop of `analyze_mqtt_unsubscribe_packet`
(mqtt.py lines 366-372). -/
def unsubscribeLoop (vhp : List Nat) (offset : Nat) (acc : List (List Nat)) :
    List (List Nat) :=
  if h : offset < vhp.length then
    let topic_length := int_from_bytes_be (pySlice vhp offset (offset + 2))
    let topic := pySlice vhp (offset + 2) (offset + 2 + topic_length)
    unsubscribeLoop vhp (offset + 2 + topic_length) (acc ++ [topic])
  else
    acc
termination_by vhp.length - offset
decreasing_by omega

/-- `analyze_mqtt_unsubscribe_packet` (mqtt.py lines 350-374). -/
def analyze_mqtt_unsubscribe_packet (vhp : List Nat) : Nat × List (List Nat) :=
  (int_from_bytes_be (pySlice vhp 0 2), unsubscribeLoop vhp 2 [])

/-- `create_mqtt_suback_packet(packet_id, qos_levels)`
(mqtt.py lines 377-404): `[0x90, 2 + len] ++ packet_id(2 bytes, big endian)
++ qos bytes`. -/
def create_mqtt_suback_packet (packet_id : Nat) (qos_levels : List MQTTQoSLevel) :
    List Nat :=
  let remaining_length := 2 + qos_levels.length
  [0x90, remaining_length] ++ to_bytes_2_be packet_id ++
    qos_levels.map MQTTQoSLevel.toNat

/-- `create_mqtt_pingresp_packet()` (mqtt.py lines 407-411). -/
def create_mqtt_pingresp_packet : List Nat := [0xD0, 0x00]

/-- `create_mqtt_unsuback_packet(packet_id)` (mqtt.py lines 414-422). -/
def create_mqtt_unsuback_packet (packet_id : Nat) : List Nat :=
  [0xB0, 0x02] ++ to_bytes_2_be packet_id

/-- `create_mqtt_connack_packet(session_present, return_code)`
(mqtt.py lines 476-503). -/
def create_mqtt_connack_packet (session_present : Bool) (return_code : Nat) :
    List Nat :=
  [0x20, 2] ++ [if session_present then 0x01 else 0x00, return_code]

/-! ### Protocol handler (`analyze_mqtt_packet`, mqtt.py lines 506-579, and
`WSApp.websocket_handler`, wsapp.py lines 64-79)

The `MQBackend` the handler calls into is abstract (`mq_backend: MQBackend`
in the source); it is modelled as a record of state transformers over an
arbitrary state type `σ`.  The calling connection (`ws_context.get()` in
the source) is implicit in `σ`. -/

/-- The abstract `MQBackend` interface (mq_backend/abstract.py) restricted
to the operations reachable from the connection handler. -/
structure MQBackendModel (σ : Type) where
  connect : List Nat → σ → Bool × σ
  subscribe : List Nat → σ → Bool × σ
  unsubscribe : List Nat → σ → Bool × σ
  notify_local_subscribers : List Nat → List Nat → σ → σ
  disconnect : σ → Bool × σ

/-- The `for topic in topic_to_subscribe` loop of the SUBSCRIBE branch
(mqtt.py lines 548-552): one granted-QoS entry per topic, in order. -/
def subscribeAll {σ : Type} (be : MQBackendModel σ) :
    List (List Nat) → σ → List MQTTQoSLevel × σ
  | [], s => ([], s)
  | t :: ts, s =>
    let (ok, s') := be.subscribe t s
    let (rest, s'') := subscribeAll be ts s'
    ((if ok then MQTTQoSLevel.AT_MOST_ONCE else MQTTQoSLevel.FAILURE) :: rest, s'')

/-- The `for topic in topics` loop of the UNSUBSCRIBE branch
(mqtt.py lines 562-563); results are ignored. -/
def unsubscribeAll {σ : Type} (be : MQBackendModel σ) :
    List (List Nat) → σ → σ
  | [], s => s
  | t :: ts, s => unsubscribeAll be ts (be.unsubscribe t s).2

/-- `analyze_mqtt_packet(packet, mq_backend)` (mqtt.py lines 506-579):
dispatch on the packet type; returns the optional response bytes together
with the backend state after the calls the branch makes. -/
def analyze_mqtt_packet {σ : Type} (be : MQBackendModel σ) (packet : MQTTPacket)
    (s : σ) : Except MQTTErr (Option (List Nat) × σ) :=
  let packet_type := packet.packet_type
  if packet_type = 1 then  -- CONNECT
    match analyze_mqtt_connect_packet packet.variable_header_and_payload with
    | .error e => .error e
    | .ok data =>
      -- `mq_backend.connect(data.get("username", ""))`
      let (ok, s') := be.connect (data.username.getD []) s
      if ok then
        .ok (some (create_mqtt_connack_packet false CONNECTION_ACCEPTED), s')
      else
        .ok (some (create_mqtt_connack_packet false NOT_AUTHORIZED), s')
  else if packet_type = 2 then  -- CONNACK
    .error (.protocolViolation "The server should not received the MQTT CONNACK packet.")
  else if packet_type = 3 then  -- PUBLISH
    let data := analyze_mqtt_publish_packet packet.packet_type_and_flags
      packet.variable_header_and_payload
    .ok (none, be.notify_local_subscribers data.topic_name data.payload s)
  else if packet_type = 4 then  -- PUBACK: ignored
    .ok (none, s)
  else if packet_type = 5 then  -- PUBREC: ignored
    .ok (none, s)
  else if packet_type = 6 then  -- PUBREL
    .error (.protocolViolation "The server should not received the MQTT PUBREL packet.")
  else if packet_type = 7 then  -- PUBCOMP: ignored
    .ok (none, s)
  else if packet_type = 8 then  -- SUBSCRIBE
    match analyze_mqtt_subscribe_packet packet.variable_header_and_payload with
    | .error e => .error e
    | .ok (packet_id, subscriptions) =>
      let topic_to_subscribe := subscriptions.map SubscriptionItem.topic
      let (qos, s') := subscribeAll be topic_to_subscribe s
      .ok (some (create_mqtt_suback_packet packet_id qos), s')
  else if packet_type = 9 then  -- SUBACK
    .error (.protocolViolation "The server should not received the MQTT SUBACK packet.")
  else if packet_type = 10 then  -- UNSUBSCRIBE
    let (packet_id, topics) :=
      analyze_mqtt_unsubscribe_packet packet.variable_header_and_payload
    .ok (some (create_mqtt_unsuback_packet packet_id), unsubscribeAll be topics s)
  else if packet_type = 11 then  -- UNSUBACK
    .error (.protocolViolation "The server should not received the MQTT UNSUBACK packet.")
  else if packet_type = 12 then  -- PINGREQ
    .ok (some create_mqtt_pingresp_packet, s)
  else if packet_type = 13 then  -- PINGRESP
    .error (.protocolViolation "The server should not received the MQTT PINGRESP packet.")
  else if packet_type = 14 then  -- DISCONNECT
    .error .closeWSConnection
  else
    .error (.protocolViolation "Unexpected packet type")

/-- An incoming WebSocket message as `MQTT.read_ws_packet` sees it. -/
inductive WSMsg where
  | binary (data : List Nat)
  | other
deriving DecidableEq, Repr

/-- `MQTT.read_ws_packet(msg)` (mqtt.py lines 648-661): feed a binary
fragment to the assembler, analyze a completed packet, surface the
optional response (sent with `ws.send_bytes` in the source); a non-binary
message raises. -/
def read_ws_packet {σ : Type} (be : MQBackendModel σ) (asm : AssemblerState)
    (s : σ) (msg : WSMsg) :
    Except MQTTErr (AssemblerState × σ × Option (List Nat)) :=
  match msg with
  | .binary data =>
    match append_fragment asm data with
    | .error e => .error e
    | .ok (none, asm') => .ok (asm', s, none)
    | .ok (some packet, asm') =>
      match analyze_mqtt_packet be packet s with
      | .error e => .error e
      | .ok (response, s') => .ok (asm', s', response)
  | .other => .error .unsupportedWSMessage

/-- How the per-connection task of `WSApp.websocket_handler` ends. -/
inductive ExitKind where
  | streamEnded
  | closeRequested
  | uncaught (e : MQTTErr)
deriving DecidableEq, Repr

/-- The observable outcome of one run of `websocket_handler`: the frames
sent to the client, the final backend state, how the loop exited, and
whether the `finally` block closed the websocket (it always does). -/
structure HandlerRun (σ : Type) where
  sent : List (List Nat)
  backendState : σ
  exit : ExitKind
  wsClosed : Bool
deriving DecidableEq, Repr

/-- The `async for msg in ws` loop of `websocket_handler` (wsapp.py lines
70-78): `CloseWSConnection` breaks out of the loop; any other exception
escapes the loop; in every case the `finally` block only resets the
context variable and closes the websocket (`wsClosed := true`) — it calls
nothing on the backend. -/
def wsLoop {σ : Type} (be : MQBackendModel σ) :
    List WSMsg → AssemblerState → σ → List (List Nat) → HandlerRun σ
  | [], _, s, sent => ⟨sent, s, .streamEnded, true⟩
  | msg :: rest, asm, s, sent =>
    match read_ws_packet be asm s msg with
    | .ok (asm', s', none) => wsLoop be rest asm' s' sent
    | .ok (asm', s', some response) => wsLoop be rest asm' s' (sent ++ [response])
    | .error .closeWSConnection => ⟨sent, s, .closeRequested, true⟩
    | .error e => ⟨sent, s, .uncaught e, true⟩

/-- `WSApp.websocket_handler` (wsapp.py lines 64-79) over a finite incoming
message stream, starting from a fresh `MQTTPacketAssembler`. -/
def websocket_handler {σ : Type} (be : MQBackendModel σ) (msgs : List WSMsg)
    (s : σ) : HandlerRun σ :=
  wsLoop be msgs AssemblerState.init s []

/-- A backend call as recorded by the tracing backend instance. -/
inductive BackendCall where
  | connectC (identifier : List Nat)
  | subscribeC (topic : List Nat)
  | unsubscribeC (topic : List Nat)
  | notifyC (topic : List Nat) (payload : List Nat)
  | disconnectC
deriving DecidableEq, Repr

/-- A backend instance whose state is the list of calls made so far; every
boolean-returning operation answers `answer`. -/
def recordingBackend (answer : Bool) : MQBackendModel (List BackendCall) :=
  { connect := fun i s => (answer, s ++ [.connectC i])
  , subscribe := fun t s => (answer, s ++ [.subscribeC t])
  , unsubscribe := fun t s => (answer, s ++ [.unsubscribeC t])
  , notify_local_subscribers := fun t p s => s ++ [.notifyC t p]
  , disconnect := fun s => (true, s ++ [.disconnectC]) }

/-- One-step evaluation equation for `subscribeLoop` (the well-founded
definition does not reduce definitionally). -/
theorem subscribeLoop_eval (vhp : List Nat) (offset : Nat)
    (acc : List SubscriptionItem) :
    subscribeLoop vhp offset acc =
      if offset < vhp.length then
        let topic_length := int_from_bytes_be (pySlice vhp offset (offset + 2))
        let topic := pySlice vhp (offset + 2) (offset + 2 + topic_length)
        match vhp.get? (offset + 2 + topic_length) with
        | none => .error .indexError
        | some qos =>
          subscribeLoop vhp (offset + 2 + topic_length + 1) (acc ++ [⟨topic, qos⟩])
      else
        .ok acc := by
  rw [subscribeLoop]
  simp only [dite_eq_ite]

/-- One-step evaluation equation for `unsubscribeLoop`. -/
theorem unsubscribeLoop_eval (vhp : List Nat) (offset : Nat)
    (acc : List (List Nat)) :
    unsubscribeLoop vhp offset acc =
      if offset < vhp.length then
        let topic_length := int_from_bytes_be (pySlice vhp offset (offset + 2))
        let topic := pySlice vhp (offset + 2) (offset + 2 + topic_length)
        unsubscribeLoop vhp (offset + 2 + topic_length) (acc ++ [topic])
      else
        acc := by
  rw [unsubscribeLoop]
  simp only [dite_eq_ite]

/-- C5.  The wire payload of a SUBACK built by `create_mqtt_suback_packet`
(everything after the 4 header bytes) is exactly the integer values of the
granted-QoS list; every `MQTTQoSLevel` above 2 has value 128, so no payload
byte is above 2 yet different from the failure sentinel 128. -/
theorem suback_failure_sentinel (packet_id : Nat) (qos_levels : List MQTTQoSLevel) :
    (create_mqtt_suback_packet packet_id qos_levels).drop 4 =
      qos_levels.map MQTTQoSLevel.toNat ∧
    (∀ q ∈ qos_levels, 2 < q.toNat → q.toNat = 128) ∧
    (∀ b ∈ (create_mqtt_suback_packet packet_id qos_levels).drop 4,
      b ≤ 2 ∨ b = 128) := by
  have hdrop : (create_mqtt_suback_packet packet_id qos_levels).drop 4 =
      qos_levels.map MQTTQoSLevel.toNat := by
    simp [create_mqtt_suback_packet, to_bytes_2_be]
  refine ⟨hdrop, ?_, ?_⟩
  · intro q _ h2
    cases q <;> simp [MQTTQoSLevel.toNat] at h2 ⊢
  · intro b hb
    rw [hdrop] at hb
    obtain ⟨q, _, rfl⟩ := List.mem_map.1 hb
    cases q <;> simp [MQTTQoSLevel.toNat]

/-- Witness for C5: the packet for granted list `[FAILURE, AT_MOST_ONCE]`
has payload `[128, 0]`, and the sentinel byte 128 satisfies the bound. -/
theorem suback_failure_sentinel_witness :
    (create_mqtt_suback_packet 1 [.FAILURE, .AT_MOST_ONCE]).drop 4 =
      [MQTTQoSLevel.FAILURE, MQTTQoSLevel.AT_MOST_ONCE].map MQTTQoSLevel.toNat ∧
    MQTTQoSLevel.FAILURE.toNat = 128 ∧
    ((128 : Nat) ≤ 2 ∨ (128 : Nat) = 128) := by
  refine ⟨(suback_failure_sentinel 1 [.FAILURE, .AT_MOST_ONCE]).1, ?_, ?_⟩
  · exact (suback_failure_sentinel 1 [.FAILURE, .AT_MOST_ONCE]).2.1
      .FAILURE (by decide) (by decide)
  · exact (suback_failure_sentinel 1 [.FAILURE, .AT_MOST_ONCE]).2.2
      128 (by decide)

/-- C7.  A SUBSCRIBE whose variable header + payload holds zero topic/QoS
pairs (length ≤ 2, i.e. nothing after the packet id) makes
`analyze_mqtt_subscribe_packet` raise the protocol violation inside
`analyze_mqtt_packet`, and the connection handler sends no SUBACK nor any
other frame: the exception escapes the read loop (closing the connection)
with `sent = []`. -/
theorem subscribe_empty_payload_no_suback {σ : Type} (be : MQBackendModel σ)
    (s : σ) (vhp : List Nat) (h : vhp.length ≤ 2) :
    analyze_mqtt_packet be ⟨0x82 :: vhp.length :: vhp, 2⟩ s =
      .error (.protocolViolation
        "A SUBSCRIBE packet with no payload is a protocol violation") ∧
    websocket_handler be [.binary (0x82 :: vhp.length :: vhp)] s =
      ⟨[], s,
       .uncaught (.protocolViolation
         "A SUBSCRIBE packet with no payload is a protocol violation"),
       true⟩ := by
  have hL : vhp.length < 128 := by omega
  have hloop : subscribeLoop vhp 2 [] = .ok [] := by
    rw [subscribeLoop_eval, if_neg (by omega)]
  have hsub : analyze_mqtt_subscribe_packet vhp =
      .error (.protocolViolation
        "A SUBSCRIBE packet with no payload is a protocol violation") := by
    unfold analyze_mqtt_subscribe_packet
    rw [hloop]
    rfl
  have hpt : (MQTTPacket.mk (0x82 :: vhp.length :: vhp) 2).packet_type = 8 := by
    show ((0x82 : Nat) >>> 4) &&& 0x0F = 8
    rfl
  have hvh : (MQTTPacket.mk (0x82 :: vhp.length :: vhp) 2).variable_header_and_payload
      = vhp := by
    rfl
  have hana : analyze_mqtt_packet be ⟨0x82 :: vhp.length :: vhp, 2⟩ s =
      .error (.protocolViolation
        "A SUBSCRIBE packet with no payload is a protocol violation") := by
    simp [analyze_mqtt_packet, hpt, hvh, hsub]
  refine ⟨hana, ?_⟩
  have hdec : decode_remaining_length (vhp.length :: vhp) = .ok (vhp.length, 1) := by
    unfold decode_remaining_length
    simp only [decodeRLAux]
    rw [if_pos (land128_eq_zero_of_lt hL)]
    rw [land127_eq_mod, Nat.mod_eq_of_lt hL]
    simp
  have happ : append_fragment AssemblerState.init (0x82 :: vhp.length :: vhp) =
      .ok (some ⟨0x82 :: vhp.length :: vhp, 2⟩, ⟨[], 0, 0⟩) := by
    simp only [append_fragment, AssemblerState.init, List.nil_append]
    rw [if_neg (by simp only [List.length_cons]; omega)]
    have hdrop1 : List.drop 1 (0x82 :: vhp.length :: vhp) = vhp.length :: vhp := rfl
    simp only [hdrop1, hdec, if_true]
    rw [if_neg (by simp only [List.length_cons]; omega)]
    have htake : (0x82 :: vhp.length :: vhp).take (1 + 1 + vhp.length) =
        0x82 :: vhp.length :: vhp := by
      apply List.take_of_length_le
      simp only [List.length_cons]
      omega
    have hdrop : (0x82 :: vhp.length :: vhp).drop (1 + 1 + vhp.length) = [] := by
      apply List.drop_eq_nil_of_le
      simp only [List.length_cons]
      omega
    rw [htake, hdrop]
  simp [websocket_handler, wsLoop, read_ws_packet, happ, hana]

/-- Witness for C7: the concrete 4-byte SUBSCRIBE `82 02 00 01` (packet id
1, empty payload) with the tracing backend. -/
theorem subscribe_empty_payload_no_suback_witness :
    analyze_mqtt_packet (recordingBackend true) ⟨[0x82, 2, 0, 1], 2⟩ [] =
      .error (.protocolViolation
        "A SUBSCRIBE packet with no payload is a protocol violation") ∧
    websocket_handler (recordingBackend true) [.binary [0x82, 2, 0, 1]] [] =
      ⟨[], [],
       .uncaught (.protocolViolation
         "A SUBSCRIBE packet with no payload is a protocol violation"),
       true⟩ := by
  have h := subscribe_empty_payload_no_suback (recordingBackend true) [] [0, 1]
    (by norm_num)
  simpa using h

/-- C2 (code bug).  A complete CONNECT whose protocol-name field is
`"XQTT"` (bytes `58 51 54 54`): `analyze_mqtt_connect_packet` raises
`UnacceptableProtocolVersion`, which no code catches — the run ends with
that exception uncaught and `sent = []`: no CONNACK (in particular none
with return code 0x01) is ever sent, the connection is simply torn down. -/
theorem connect_wrong_name_no_connack :
    websocket_handler (recordingBackend true)
        [.binary [0x10, 14, 0, 4, 0x58, 0x51, 0x54, 0x54, 4, 2, 0, 60,
                  0, 2, 0x63, 0x31]] [] =
      ⟨[], [],
       .uncaught (.unacceptableProtocolVersion "Wrong protocol name must be MQTT"),
       true⟩ ∧
    UNACCEPTABLE_PROTOCOL_VERSION = 0x01 := by
  exact ⟨rfl, rfl⟩

/-- C4 (counterexample).  The valid CONNECT `10 12 | 00 04 "MQTT" 04 82
00 3C | 00 02 "c1" | 00 02 "u1"` carries client id `"c1"` and username
`"u1"`.  The parser returns both fields, but the handler calls the
backend's `connect` with the *username* bytes `"u1"` — never with the
client id `"c1"` — because the source passes `data.get("username", "")`. -/
theorem connect_identity_counterexample :
    analyze_mqtt_connect_packet
        [0, 4, 0x4D, 0x51, 0x54, 0x54, 4, 0x82, 0, 60,
         0, 2, 0x63, 0x31, 0, 2, 0x75, 0x31] =
      .ok { clean_session := true, will_qos := 0, will_retain := false,
            keep_alive := 60, client_id := [0x63, 0x31],
            will_topic := none, will_message := none,
            username := some [0x75, 0x31], password := none } ∧
    websocket_handler (recordingBackend true)
        [.binary [0x10, 18, 0, 4, 0x4D, 0x51, 0x54, 0x54, 4, 0x82, 0, 60,
                  0, 2, 0x63, 0x31, 0, 2, 0x75, 0x31]] [] =
      ⟨[[0x20, 2, 0x00, 0x00]], [.connectC [0x75, 0x31]], .streamEnded, true⟩ ∧
    BackendCall.connectC [0x63, 0x31] ∉ ([.connectC [0x75, 0x31]] : List BackendCall) := by
  refine ⟨rfl, rfl, by decide⟩

/-- C4 (amended).  For every packet of type CONNECT whose variable header
and payload parse successfully, `analyze_mqtt_packet` calls the backend's
`connect` with the parsed *username* (empty when absent) — not the client
id — and answers CONNACK(accepted, 0x00) exactly when `connect` returns
true, CONNACK(not authorized, 0x05) otherwise. -/
theorem connect_calls_backend_with_username {σ : Type} (be : MQBackendModel σ)
    (s : σ) (packet : MQTTPacket) (data : ConnectParams)
    (hpt : packet.packet_type = 1)
    (hp : analyze_mqtt_connect_packet packet.variable_header_and_payload = .ok data) :
    analyze_mqtt_packet be packet s =
      .ok (some (create_mqtt_connack_packet false
            (if (be.connect (data.username.getD []) s).1 then CONNECTION_ACCEPTED
             else NOT_AUTHORIZED)),
           (be.connect (data.username.getD []) s).2) := by
  rcases hbc : be.connect (data.username.getD []) s with ⟨ok, s'⟩
  simp only [analyze_mqtt_packet, hpt, hp, hbc, if_true, eq_self_iff_true]
  cases ok <;> simp

/-- Witness for the amended C4: the concrete CONNECT of the counterexample
with the tracing backend; `connect` answers true, so the CONNACK carries
return code 0x00 and the recorded call is `connect "u1"`. -/
theorem connect_calls_backend_with_username_witness :
    analyze_mqtt_packet (recordingBackend true)
        ⟨[0x10, 18, 0, 4, 0x4D, 0x51, 0x54, 0x54, 4, 0x82, 0, 60,
          0, 2, 0x63, 0x31, 0, 2, 0x75, 0x31], 2⟩ [] =
      .ok (some (create_mqtt_connack_packet false CONNECTION_ACCEPTED),
           [BackendCall.connectC [0x75, 0x31]]) := by
  have h := connect_calls_backend_with_username (recordingBackend true) []
    ⟨[0x10, 18, 0, 4, 0x4D, 0x51, 0x54, 0x54, 4, 0x82, 0, 60,
      0, 2, 0x63, 0x31, 0, 2, 0x75, 0x31], 2⟩
    { clean_session := true, will_qos := 0, will_retain := false,
      keep_alive := 60, client_id := [0x63, 0x31],
      will_topic := none, will_message := none,
      username := some [0x75, 0x31], password := none }
    (by show ((0x10 : Nat) >>> 4) &&& 0x0F = 1; rfl) rfl
  simpa [recordingBackend] using h

/-- Projection equations of the tracing backend. -/
theorem recordingBackend_connect (a : Bool) (i : List Nat) (s : List BackendCall) :
    (recordingBackend a).connect i s = (a, s ++ [.connectC i]) := rfl

theorem recordingBackend_subscribe (a : Bool) (t : List Nat) (s : List BackendCall) :
    (recordingBackend a).subscribe t s = (a, s ++ [.subscribeC t]) := rfl

theorem recordingBackend_unsubscribe (a : Bool) (t : List Nat) (s : List BackendCall) :
    (recordingBackend a).unsubscribe t s = (a, s ++ [.unsubscribeC t]) := rfl

theorem recordingBackend_notify (a : Bool) (t p : List Nat) (s : List BackendCall) :
    (recordingBackend a).notify_local_subscribers t p s = s ++ [.notifyC t p] := rfl

/-- The SUBSCRIBE loop only records `subscribe` calls. -/
theorem subscribeAll_preserves_no_disconnect (a : Bool) :
    ∀ (ts : List (List Nat)) (s : List BackendCall),
      BackendCall.disconnectC ∉ s →
      BackendCall.disconnectC ∉ (subscribeAll (recordingBackend a) ts s).2 := by
  intro ts
  induction ts with
  | nil =>
    intro s hs
    simpa [subscribeAll] using hs
  | cons t ts ih =>
    intro s hs
    rcases hsa : subscribeAll (recordingBackend a) ts (s ++ [.subscribeC t])
      with ⟨rest, s''⟩
    have h2 := ih (s ++ [.subscribeC t]) (by simp [hs])
    rw [hsa] at h2
    simp only [subscribeAll, recordingBackend_subscribe, hsa]
    exact h2

/-- The UNSUBSCRIBE loop only records `unsubscribe` calls. -/
theorem unsubscribeAll_preserves_no_disconnect (a : Bool) :
    ∀ (ts : List (List Nat)) (s : List BackendCall),
      BackendCall.disconnectC ∉ s →
      BackendCall.disconnectC ∉ unsubscribeAll (recordingBackend a) ts s := by
  intro ts
  induction ts with
  | nil =>
    intro s hs
    simpa [unsubscribeAll] using hs
  | cons t ts ih =>
    intro s hs
    simp only [unsubscribeAll, recordingBackend_unsubscribe]
    exact ih (s ++ [.unsubscribeC t]) (by simp [hs])

set_option maxHeartbeats 1000000 in
/-- No branch of `analyze_mqtt_packet` performs a `disconnect` call. -/
theorem analyze_mqtt_packet_preserves_no_disconnect (a : Bool)
    (packet : MQTTPacket) (s : List BackendCall) (r : Option (List Nat))
    (s' : List BackendCall)
    (h : analyze_mqtt_packet (recordingBackend a) packet s = .ok (r, s'))
    (hs : BackendCall.disconnectC ∉ s) :
    BackendCall.disconnectC ∉ s' := by
  simp only [analyze_mqtt_packet] at h
  by_cases h1 : packet.packet_type = 1
  · -- CONNECT
    rw [if_pos h1] at h
    cases hcp : analyze_mqtt_connect_packet packet.variable_header_and_payload with
    | error e => rw [hcp] at h; simp at h
    | ok data =>
      rw [hcp] at h
      simp only [recordingBackend_connect] at h
      split_ifs at h <;> (cases h; simp [hs])
  rw [if_neg h1] at h
  by_cases h2 : packet.packet_type = 2
  · rw [if_pos h2] at h; simp at h
  rw [if_neg h2] at h
  by_cases h3 : packet.packet_type = 3
  · -- PUBLISH
    rw [if_pos h3] at h
    simp only [recordingBackend_notify] at h
    cases h
    simp [hs]
  rw [if_neg h3] at h
  by_cases h4 : packet.packet_type = 4
  · rw [if_pos h4] at h; cases h; exact hs
  rw [if_neg h4] at h
  by_cases h5 : packet.packet_type = 5
  · rw [if_pos h5] at h; cases h; exact hs
  rw [if_neg h5] at h
  by_cases h6 : packet.packet_type = 6
  · rw [if_pos h6] at h; simp at h
  rw [if_neg h6] at h
  by_cases h7 : packet.packet_type = 7
  · rw [if_pos h7] at h; cases h; exact hs
  rw [if_neg h7] at h
  by_cases h8 : packet.packet_type = 8
  · -- SUBSCRIBE
    rw [if_pos h8] at h
    cases hsp : analyze_mqtt_subscribe_packet packet.variable_header_and_payload with
    | error e => rw [hsp] at h; simp at h
    | ok pr =>
      rcases pr with ⟨pid, subs⟩
      rw [hsp] at h
      cases h
      exact subscribeAll_preserves_no_disconnect a (subs.map SubscriptionItem.topic) s hs
  rw [if_neg h8] at h
  by_cases h9 : packet.packet_type = 9
  · rw [if_pos h9] at h; simp at h
  rw [if_neg h9] at h
  by_cases h10 : packet.packet_type = 10
  · -- UNSUBSCRIBE
    rw [if_pos h10] at h
    cases h
    exact unsubscribeAll_preserves_no_disconnect a _ s hs
  rw [if_neg h10] at h
  by_cases h11 : packet.packet_type = 11
  · rw [if_pos h11] at h; simp at h
  rw [if_neg h11] at h
  by_cases h12 : packet.packet_type = 12
  · rw [if_pos h12] at h; cases h; exact hs
  rw [if_neg h12] at h
  by_cases h13 : packet.packet_type = 13
  · rw [if_pos h13] at h; simp at h
  rw [if_neg h13] at h
  by_cases h14 : packet.packet_type = 14
  · rw [if_pos h14] at h; simp at h
  rw [if_neg h14] at h
  simp at h

/-- A successful `read_ws_packet` step never records a `disconnect`. -/
theorem read_ws_packet_preserves_no_disconnect (a : Bool)
    (asm : AssemblerState) (s : List BackendCall) (msg : WSMsg)
    (asm' : AssemblerState) (s' : List BackendCall) (resp : Option (List Nat))
    (h : read_ws_packet (recordingBackend a) asm s msg = .ok (asm', s', resp))
    (hs : BackendCall.disconnectC ∉ s) :
    BackendCall.disconnectC ∉ s' := by
  cases msg with
  | other => simp [read_ws_packet] at h
  | binary data =>
    simp only [read_ws_packet] at h
    cases happ : append_fragment asm data with
    | error e => rw [happ] at h; simp at h
    | ok pr =>
      rcases pr with ⟨opk, asm''⟩
      rw [happ] at h
      cases opk with
      | none => cases h; exact hs
      | some pk =>
        cases hana : analyze_mqtt_packet (recordingBackend a) pk s with
        | error e => simp only [hana] at h; simp at h
        | ok pr2 =>
          rcases pr2 with ⟨resp2, s2⟩
          simp only [hana] at h
          cases h
          exact analyze_mqtt_packet_preserves_no_disconnect a pk s _ _ hana hs

/-- The read loop never records a `disconnect`, and the `finally` block
closes the websocket on every exit path. -/
theorem wsLoop_no_disconnect (a : Bool) :
    ∀ (msgs : List WSMsg) (asm : AssemblerState) (s : List BackendCall)
      (sent : List (List Nat)),
      BackendCall.disconnectC ∉ s →
      BackendCall.disconnectC ∉
        (wsLoop (recordingBackend a) msgs asm s sent).backendState ∧
      (wsLoop (recordingBackend a) msgs asm s sent).wsClosed = true := by
  intro msgs
  induction msgs with
  | nil =>
    intro asm s sent hs
    exact ⟨hs, rfl⟩
  | cons msg rest ih =>
    intro asm s sent hs
    cases hr : read_ws_packet (recordingBackend a) asm s msg with
    | error e =>
      cases e <;> simp only [wsLoop, hr] <;> exact ⟨hs, by simp⟩
    | ok tr =>
      rcases tr with ⟨asm', s', resp⟩
      have hs' := read_ws_packet_preserves_no_disconnect a asm s msg asm' s' resp hr hs
      cases resp with
      | none =>
        simp only [wsLoop, hr]
        exact ih asm' s' sent hs'
      | some response =>
        simp only [wsLoop, hr]
        exact ih asm' s' (sent ++ [response]) hs'

/-- C3 (counterexample).  A run that connects (CONNECT without username,
so identity `""`) and then receives DISCONNECT: the task exits through the
DISCONNECT path (`closeRequested`), the websocket is closed, yet the
backend call trace holds only the `connect` call — `disconnect()` was not
invoked on this exit path, contradicting the claim. -/
theorem handler_exit_without_disconnect :
    websocket_handler (recordingBackend true)
        [.binary [0x10, 14, 0, 4, 0x4D, 0x51, 0x54, 0x54, 4, 2, 0, 60,
                  0, 2, 0x63, 0x31],
         .binary [0xE0, 0]] [] =
      ⟨[[0x20, 2, 0, 0]], [.connectC []], .closeRequested, true⟩ ∧
    BackendCall.disconnectC ∉ ([BackendCall.connectC []] : List BackendCall) := by
  exact ⟨rfl, by decide⟩

/-- C3 (amended).  On every exit path of the handler the `finally` block
closes the websocket, but the backend's `disconnect` operation is never
invoked: for every incoming message stream, the recorded backend call
trace contains no `disconnect` call. -/
theorem handler_never_calls_disconnect (a : Bool) (msgs : List WSMsg)
    (s : List BackendCall) (hs : BackendCall.disconnectC ∉ s) :
    BackendCall.disconnectC ∉
      (websocket_handler (recordingBackend a) msgs s).backendState ∧
    (websocket_handler (recordingBackend a) msgs s).wsClosed = true :=
  wsLoop_no_disconnect a msgs AssemblerState.init s [] hs

/-- Witness for the amended C3: the DISCONNECT-packet stream from the
empty trace. -/
theorem handler_never_calls_disconnect_witness :
    BackendCall.disconnectC ∉
      (websocket_handler (recordingBackend true) [.binary [0xE0, 0]] []).backendState ∧
    (websocket_handler (recordingBackend true) [.binary [0xE0, 0]] []).wsClosed = true :=
  handler_never_calls_disconnect true [.binary [0xE0, 0]] [] (by decide)

/-! ### `MemoryMQBackend` (mq_backend/memory.py)

The `WeakKeyDictionary` keyed by `WebSocketResponse` is modelled as an
association list keyed by an abstract connection id (`Nat`); the calling
connection (`ws_context.get()`) is passed explicitly.  `WeakSet`s of
subscribers are modelled as duplicate-free lists.  The local-subscriber
registry (callback functions) plays no role in the claims under study and
is omitted from the state. -/

/-- `dict.get(key)` on an association list. -/
def assocGet : List (Nat × String) → Nat → Option String
  | [], _ => none
  | (k, v) :: rest, key => if k = key then some v else assocGet rest key

/-- `self._topics.get(topic)`. -/
def topicSubs : List (String × List Nat) → String → Option (List Nat)
  | [], _ => none
  | (t, subs) :: rest, topic => if t = topic then some subs else topicSubs rest topic

/-- `set.add` (a no-op when already present). -/
def setAdd (s : List Nat) (ws : Nat) : List Nat :=
  if ws ∈ s then s else s ++ [ws]

/-- `WeakSet.discard`. -/
def setDiscard (s : List Nat) (ws : Nat) : List Nat :=
  s.filter (fun x => x != ws)

/-- `self._topics.setdefault(topic, WeakSet()).add(ws)` (memory.py 65). -/
def topicsAdd : List (String × List Nat) → String → Nat → List (String × List Nat)
  | [], topic, ws => [(topic, [ws])]
  | (t, subs) :: rest, topic, ws =>
    if t = topic then (t, setAdd subs ws) :: rest
    else (t, subs) :: topicsAdd rest topic ws

/-- `self._topics[topic].discard(ws)` followed by
`if not self._topics[topic]: del self._topics[topic]` (memory.py 85-87). -/
def topicsDiscardPrune : List (String × List Nat) → String → Nat → List (String × List Nat)
  | [], _, _ => []
  | (t, subs) :: rest, topic, ws =>
    if t = topic then
      let subs' := setDiscard subs ws
      if subs' = [] then rest else (t, subs') :: rest
    else (t, subs) :: topicsDiscardPrune rest topic ws

/-- The `for topic, subscribers in list(self._topics.items())` sweep of
`disconnect` (memory.py 106-109). -/
def sweepTopics : List (String × List Nat) → Nat → List (String × List Nat)
  | [], _ => []
  | (t, subs) :: rest, ws =>
    let subs' := setDiscard subs ws
    if subs' = [] then sweepTopics rest ws
    else (t, subs') :: sweepTopics rest ws

/-- The state of a `MemoryMQBackend`. -/
structure MemoryMQBackend where
  _identifier_by_ws : List (Nat × String)
  _topics : List (String × List Nat)
  _available_topics : List String
deriving DecidableEq, Repr

/-- `str.isprintable()` restricted to ASCII topic strings (code points
32-126 are printable; control characters and DEL are not). -/
def isprintable (s : String) : Bool :=
  s.toList.all (fun c => decide (32 ≤ c.toNat ∧ c.toNat ≤ 126))

/-- `MemoryMQBackend.ensure_topic_exists` (memory.py 24-32):
`topic.removeprefix("/")`, reject non-printable names, add to the
available-topics set. -/
def MemoryMQBackend.ensure_topic_exists (be : MemoryMQBackend) (topic : String) :
    Bool × MemoryMQBackend :=
  let topic := if topic.startsWith "/" then topic.drop 1 else topic
  if isprintable topic then
    (true, { be with _available_topics :=
      if topic ∈ be._available_topics then be._available_topics
      else be._available_topics ++ [topic] })
  else
    (false, be)

/-- `MemoryMQBackend.connect` (memory.py 34-45). -/
def MemoryMQBackend.connect (be : MemoryMQBackend) (ws : Nat) (identifier : String) :
    Bool × MemoryMQBackend :=
  match assocGet be._identifier_by_ws ws with
  | some _ => (false, be)
  | none => (true, { be with _identifier_by_ws :=
      be._identifier_by_ws ++ [(ws, identifier)] })

/-- `MemoryMQBackend.subscribe` (memory.py 47-67). -/
def MemoryMQBackend.subscribe (be : MemoryMQBackend) (ws : Nat) (topic : String) :
    Bool × MemoryMQBackend :=
  match assocGet be._identifier_by_ws ws with
  | none => (false, be)
  | some _ =>
    if topic ∈ be._available_topics then
      (true, { be with _topics := topicsAdd be._topics topic ws })
    else
      (false, be)

/-- `MemoryMQBackend.unsubscribe` (memory.py 69-89). -/
def MemoryMQBackend.unsubscribe (be : MemoryMQBackend) (ws : Nat) (topic : String) :
    Bool × MemoryMQBackend :=
  match assocGet be._identifier_by_ws ws with
  | none => (false, be)
  | some _ =>
    if ws ∈ (topicSubs be._topics topic).getD [] then
      (true, { be with _topics := topicsDiscardPrune be._topics topic ws })
    else
      (false, be)

/-- `MemoryMQBackend.disconnect` (memory.py 91-111): pop the identity
(always returning true), and when an identity was present sweep the
connection out of every topic, pruning emptied subscriber sets. -/
def MemoryMQBackend.disconnect (be : MemoryMQBackend) (ws : Nat) :
    Bool × MemoryMQBackend :=
  match assocGet be._identifier_by_ws ws with
  | none => (true, be)
  | some _ =>
    (true, { be with
      _identifier_by_ws := be._identifier_by_ws.filter (fun p => p.1 != ws),
      _topics := sweepTopics be._topics ws })

/-- No topic maps to an empty subscriber set. -/
def NoEmptyTopicSubs (ts : List (String × List Nat)) : Prop :=
  ∀ p ∈ ts, p.2 ≠ []

theorem mem_setAdd (s : List Nat) (ws : Nat) : ws ∈ setAdd s ws := by
  unfold setAdd
  by_cases h : ws ∈ s <;> simp [h]

theorem setAdd_idem (s : List Nat) (ws : Nat) :
    setAdd (setAdd s ws) ws = setAdd s ws := by
  unfold setAdd
  by_cases h : ws ∈ s <;> simp [h]

theorem setAdd_ne_nil (s : List Nat) (ws : Nat) (h : s ≠ []) :
    setAdd s ws ≠ [] := by
  unfold setAdd
  by_cases hm : ws ∈ s <;> simp [hm, h]

theorem topicsAdd_mem (ts : List (String × List Nat)) (topic : String) (ws : Nat) :
    ws ∈ (topicSubs (topicsAdd ts topic ws) topic).getD [] := by
  induction ts with
  | nil => simp [topicsAdd, topicSubs]
  | cons p rest ih =>
    rcases p with ⟨t, subs⟩
    by_cases ht : t = topic
    · subst ht
      simp [topicsAdd, topicSubs, mem_setAdd]
    · simpa only [topicsAdd, if_neg ht, topicSubs] using ih

theorem topicsAdd_idem (ts : List (String × List Nat)) (topic : String) (ws : Nat) :
    topicsAdd (topicsAdd ts topic ws) topic ws = topicsAdd ts topic ws := by
  induction ts with
  | nil => simp [topicsAdd, setAdd]
  | cons p rest ih =>
    rcases p with ⟨t, subs⟩
    by_cases ht : t = topic
    · subst ht
      simp [topicsAdd, setAdd_idem]
    · simp only [topicsAdd, if_neg ht]
      rw [ih]

theorem topicSubs_eq_none (ts : List (String × List Nat)) (topic : String)
    (h : topic ∉ ts.map Prod.fst) : topicSubs ts topic = none := by
  induction ts with
  | nil => rfl
  | cons p rest ih =>
    rcases p with ⟨t, subs⟩
    simp only [List.map_cons, List.mem_cons] at h
    push_neg at h
    simp only [topicSubs, if_neg (show ¬ t = topic from fun hh => h.1 hh.symm)]
    exact ih h.2

theorem topicsDiscardPrune_not_mem :
    ∀ (ts : List (String × List Nat)) (topic : String) (ws : Nat),
      (ts.map Prod.fst).Nodup →
      ws ∉ (topicSubs (topicsDiscardPrune ts topic ws) topic).getD [] := by
  intro ts
  induction ts with
  | nil =>
    intro topic ws _
    simp [topicsDiscardPrune, topicSubs]
  | cons p rest ih =>
    intro topic ws h
    rcases p with ⟨t, subs⟩
    simp only [List.map_cons, List.nodup_cons] at h
    by_cases ht : t = topic
    · subst ht
      have hred : topicsDiscardPrune ((t, subs) :: rest) t ws =
          if setDiscard subs ws = [] then rest
          else (t, setDiscard subs ws) :: rest := by
        simp [topicsDiscardPrune]
      rw [hred]
      by_cases hemp : setDiscard subs ws = []
      · rw [if_pos hemp, topicSubs_eq_none rest t h.1]
        simp
      · rw [if_neg hemp]
        simp [topicSubs, setDiscard, List.mem_filter]
    · simpa only [topicsDiscardPrune, if_neg ht, topicSubs] using ih topic ws h.2

theorem topicsAdd_no_empty :
    ∀ (ts : List (String × List Nat)) (topic : String) (ws : Nat),
      NoEmptyTopicSubs ts → NoEmptyTopicSubs (topicsAdd ts topic ws) := by
  intro ts
  induction ts with
  | nil =>
    intro topic ws _ p hp
    simp only [topicsAdd, List.mem_singleton] at hp
    subst hp
    simp
  | cons q rest ih =>
    intro topic ws h
    rcases q with ⟨t, subs⟩
    have hrest : NoEmptyTopicSubs rest := fun p hp => h p (List.mem_cons_of_mem _ hp)
    by_cases ht : t = topic
    · subst ht
      intro p hp
      simp only [topicsAdd, eq_self_iff_true, if_true, List.mem_cons] at hp
      rcases hp with rfl | hp
      · exact setAdd_ne_nil subs ws (h (t, subs) (List.mem_cons_self _ _))
      · exact hrest p hp
    · intro p hp
      simp only [topicsAdd, if_neg ht, List.mem_cons] at hp
      rcases hp with rfl | hp
      · exact h _ (List.mem_cons_self _ _)
      · exact ih topic ws hrest p hp

theorem topicsDiscardPrune_no_empty :
    ∀ (ts : List (String × List Nat)) (topic : String) (ws : Nat),
      NoEmptyTopicSubs ts → NoEmptyTopicSubs (topicsDiscardPrune ts topic ws) := by
  intro ts
  induction ts with
  | nil =>
    intro topic ws _ p hp
    simp [topicsDiscardPrune] at hp
  | cons q rest ih =>
    intro topic ws h
    rcases q with ⟨t, subs⟩
    have hrest : NoEmptyTopicSubs rest := fun p hp => h p (List.mem_cons_of_mem _ hp)
    by_cases ht : t = topic
    · subst ht
      have hred : topicsDiscardPrune ((t, subs) :: rest) t ws =
          if setDiscard subs ws = [] then rest
          else (t, setDiscard subs ws) :: rest := by
        simp [topicsDiscardPrune]
      rw [hred]
      by_cases hemp : setDiscard subs ws = []
      · rw [if_pos hemp]
        exact hrest
      · rw [if_neg hemp]
        intro p hp
        rcases List.mem_cons.1 hp with rfl | hp
        · exact hemp
        · exact hrest p hp
    · simp only [topicsDiscardPrune, if_neg ht]
      intro p hp
      rcases List.mem_cons.1 hp with rfl | hp
      · exact h _ (List.mem_cons_self _ _)
      · exact ih topic ws hrest p hp

theorem sweepTopics_no_empty :
    ∀ (ts : List (String × List Nat)) (ws : Nat),
      NoEmptyTopicSubs ts → NoEmptyTopicSubs (sweepTopics ts ws) := by
  intro ts
  induction ts with
  | nil =>
    intro ws _ p hp
    simp [sweepTopics] at hp
  | cons q rest ih =>
    intro ws h
    rcases q with ⟨t, subs⟩
    have hrest : NoEmptyTopicSubs rest := fun p hp => h p (List.mem_cons_of_mem _ hp)
    simp only [sweepTopics]
    by_cases hemp : setDiscard subs ws = []
    · rw [if_pos hemp]
      exact ih ws hrest
    · rw [if_neg hemp]
      intro p hp
      rcases List.mem_cons.1 hp with rfl | hp
      · exact hemp
      · exact ih ws hrest p hp

/-- C8.  `subscribe` fails (returning false, state unchanged) when the
calling connection has no registered identity or when the topic is not in
the available-topics set (the set `ensure_topic_exists` fills); otherwise
it returns true, the caller is in the topic's subscriber set afterwards,
and an identical second subscribe returns true with the state unchanged. -/
theorem memory_subscribe_contract (be : MemoryMQBackend) (ws : Nat) (topic : String) :
    (assocGet be._identifier_by_ws ws = none →
      be.subscribe ws topic = (false, be)) ∧
    (topic ∉ be._available_topics →
      be.subscribe ws topic = (false, be)) ∧
    (∀ ident, assocGet be._identifier_by_ws ws = some ident →
      topic ∈ be._available_topics →
      (be.subscribe ws topic).1 = true ∧
      ws ∈ (topicSubs ((be.subscribe ws topic).2)._topics topic).getD [] ∧
      ((be.subscribe ws topic).2).subscribe ws topic =
        (true, (be.subscribe ws topic).2)) := by
  refine ⟨?_, ?_, ?_⟩
  · intro hid
    simp [MemoryMQBackend.subscribe, hid]
  · intro hav
    cases hlk : assocGet be._identifier_by_ws ws with
    | none => simp [MemoryMQBackend.subscribe, hlk]
    | some ident => simp [MemoryMQBackend.subscribe, hlk, hav]
  · intro ident hlk hav
    have hsub : be.subscribe ws topic =
        (true, { be with _topics := topicsAdd be._topics topic ws }) := by
      simp [MemoryMQBackend.subscribe, hlk, hav]
    rw [hsub]
    refine ⟨rfl, topicsAdd_mem be._topics topic ws, ?_⟩
    simp [MemoryMQBackend.subscribe, hlk, hav, topicsAdd_idem]

/-- Witness for C8: identity 1 is connected as `"c1"`, topic `"rooms/1"`
is available; the success conjunct is instantiated there (and the failure
conjunct at the undeclared topic `"other"`). -/
theorem memory_subscribe_contract_witness :
    (MemoryMQBackend.mk [(1, "c1")] [] ["rooms/1"]).subscribe 1 "other" =
      (false, MemoryMQBackend.mk [(1, "c1")] [] ["rooms/1"]) ∧
    ((MemoryMQBackend.mk [(1, "c1")] [] ["rooms/1"]).subscribe 1 "rooms/1").1 = true ∧
    (((MemoryMQBackend.mk [(1, "c1")] [] ["rooms/1"]).subscribe 1 "rooms/1").2).subscribe
        1 "rooms/1" =
      (true, ((MemoryMQBackend.mk [(1, "c1")] [] ["rooms/1"]).subscribe 1 "rooms/1").2) := by
  refine ⟨?_, ?_, ?_⟩
  · exact (memory_subscribe_contract (MemoryMQBackend.mk [(1, "c1")] [] ["rooms/1"])
      1 "other").2.1 (by decide)
  · exact ((memory_subscribe_contract (MemoryMQBackend.mk [(1, "c1")] [] ["rooms/1"])
      1 "rooms/1").2.2 "c1" (by decide) (by decide)).1
  · exact ((memory_subscribe_contract (MemoryMQBackend.mk [(1, "c1")] [] ["rooms/1"])
      1 "rooms/1").2.2 "c1" (by decide) (by decide)).2.2

/-- C9.  `unsubscribe` fails (state unchanged) when the caller is not in
the topic's subscriber set; on success the caller is no longer in that set
(given the dict invariant that topic keys are unique) and emptied sets are
pruned, so the no-empty-subscriber-set invariant is preserved by
`subscribe`, `unsubscribe` and `disconnect`; `unsubscribe` never touches
the available-topics (declaration) set. -/
theorem memory_unsubscribe_contract (be : MemoryMQBackend) (ws : Nat) (topic : String) :
    (ws ∉ (topicSubs be._topics topic).getD [] →
      be.unsubscribe ws topic = (false, be)) ∧
    ((be.unsubscribe ws topic).1 = true →
      (be._topics.map Prod.fst).Nodup →
      ws ∉ (topicSubs ((be.unsubscribe ws topic).2)._topics topic).getD []) ∧
    (NoEmptyTopicSubs be._topics →
      NoEmptyTopicSubs ((be.subscribe ws topic).2)._topics ∧
      NoEmptyTopicSubs ((be.unsubscribe ws topic).2)._topics ∧
      NoEmptyTopicSubs ((be.disconnect ws).2)._topics) ∧
    ((be.unsubscribe ws topic).2._available_topics = be._available_topics) := by
  refine ⟨?_, ?_, ?_, ?_⟩
  · intro hnm
    cases hlk : assocGet be._identifier_by_ws ws with
    | none => simp [MemoryMQBackend.unsubscribe, hlk]
    | some ident => simp [MemoryMQBackend.unsubscribe, hlk, hnm]
  · intro hok hnd
    cases hlk : assocGet be._identifier_by_ws ws with
    | none => simp [MemoryMQBackend.unsubscribe, hlk] at hok
    | some ident =>
      by_cases hin : ws ∈ (topicSubs be._topics topic).getD []
      · have hsub : be.unsubscribe ws topic =
            (true, { be with _topics := topicsDiscardPrune be._topics topic ws }) := by
          simp [MemoryMQBackend.unsubscribe, hlk, hin]
        rw [hsub]
        exact topicsDiscardPrune_not_mem be._topics topic ws hnd
      · simp [MemoryMQBackend.unsubscribe, hlk, hin] at hok
  · intro hne
    refine ⟨?_, ?_, ?_⟩
    · cases hlk : assocGet be._identifier_by_ws ws with
      | none => simpa [MemoryMQBackend.subscribe, hlk] using hne
      | some ident =>
        by_cases hav : topic ∈ be._available_topics
        · simpa [MemoryMQBackend.subscribe, hlk, hav] using
            topicsAdd_no_empty be._topics topic ws hne
        · simpa [MemoryMQBackend.subscribe, hlk, hav] using hne
    · cases hlk : assocGet be._identifier_by_ws ws with
      | none => simpa [MemoryMQBackend.unsubscribe, hlk] using hne
      | some ident =>
        by_cases hin : ws ∈ (topicSubs be._topics topic).getD []
        · simpa [MemoryMQBackend.unsubscribe, hlk, hin] using
            topicsDiscardPrune_no_empty be._topics topic ws hne
        · simpa [MemoryMQBackend.unsubscribe, hlk, hin] using hne
    · cases hlk : assocGet be._identifier_by_ws ws with
      | none => simpa [MemoryMQBackend.disconnect, hlk] using hne
      | some ident =>
        simpa [MemoryMQBackend.disconnect, hlk] using
          sweepTopics_no_empty be._topics ws hne
  · cases hlk : assocGet be._identifier_by_ws ws with
    | none => simp [MemoryMQBackend.unsubscribe, hlk]
    | some ident =>
      by_cases hin : ws ∈ (topicSubs be._topics topic).getD []
      · simp [MemoryMQBackend.unsubscribe, hlk, hin]
      · simp [MemoryMQBackend.unsubscribe, hlk, hin]

/-- Witness for C9: connection 1 (identity `"c1"`) is the sole subscriber
of `"rooms/1"`; unsubscribing succeeds, the emptied subscriber-set entry is
pruned away, the declaration stays, and the invariant conjunct is
instantiated on the same state. -/
theorem memory_unsubscribe_contract_witness :
    ((MemoryMQBackend.mk [(1, "c1")] [("rooms/1", [1])] ["rooms/1"]).unsubscribe
        1 "rooms/1").1 = true ∧
    1 ∉ (topicSubs (((MemoryMQBackend.mk [(1, "c1")] [("rooms/1", [1])]
        ["rooms/1"]).unsubscribe 1 "rooms/1").2)._topics "rooms/1").getD [] ∧
    NoEmptyTopicSubs (((MemoryMQBackend.mk [(1, "c1")] [("rooms/1", [1])]
        ["rooms/1"]).unsubscribe 1 "rooms/1").2)._topics ∧
    ((MemoryMQBackend.mk [(1, "c1")] [("rooms/1", [1])] ["rooms/1"]).unsubscribe
        1 "rooms/1").2._available_topics = ["rooms/1"] := by
  refine ⟨by decide, ?_, ?_, ?_⟩
  · exact (memory_unsubscribe_contract
      (MemoryMQBackend.mk [(1, "c1")] [("rooms/1", [1])] ["rooms/1"]) 1 "rooms/1").2.1
      (by decide) (by decide)
  · exact ((memory_unsubscribe_contract
      (MemoryMQBackend.mk [(1, "c1")] [("rooms/1", [1])] ["rooms/1"]) 1 "rooms/1").2.2.1
      (by simp [NoEmptyTopicSubs])).2.1
  · exact (memory_unsubscribe_contract
      (MemoryMQBackend.mk [(1, "c1")] [("rooms/1", [1])] ["rooms/1"]) 1 "rooms/1").2.2.2
